import Mathlib

/-!
Verification development for the diagram reconciliation engine of
`bin/ADE_generate_diagrams.py`.  Text is modelled as `List Char` (Python
`str`), the file system as an association list from absolute path strings to
file contents, and the regular expressions of the source are transcribed into
a small element list matched by a faithful backtracking matcher.
-/

/-- Text of a Python string, as a list of characters. -/
abbrev Str := List Char

/-- Whitespace test used by Python's `str.strip` and the regex class `\s`
(space, tab, newline, carriage return, vertical tab, form feed). -/
def pyIsSpace (c : Char) : Bool :=
  c = ' ' || c = '\t' || c = '\n' || c = '\r' || c = '\x0b' || c = '\x0c'

/-- Word-character test of the regex class `\w`: alphanumeric or underscore
(over the ASCII fragment the repository's documents use). -/
def pyIsWord (c : Char) : Bool := c.isAlphanum || c = '_'

/-- Python `str.strip()`: drop whitespace from both ends. -/
def pyStrip (s : Str) : Str :=
  ((s.dropWhile pyIsSpace).reverse.dropWhile pyIsSpace).reverse

/-- Python `str.lower()` on the ASCII fragment. -/
def pyLower (s : Str) : Str := s.map Char.toLower

/-- Python slice `s[a:b]` for `0 ≤ a ≤ b` (out-of-range indices clamp). -/
def strSlice (s : Str) (a b : Nat) : Str := (s.drop a).take (b - a)

/-- Decimal rendering of a natural number, as Python `str(n)` / f-strings. -/
def natToStr (n : Nat) : Str := Nat.toDigits 10 n

/-- Python `s.split("\n")`: never empty, `"" ↦ [""]`. -/
def splitNL : Str → List Str
  | [] => [[]]
  | c :: cs =>
    if c = '\n' then [] :: splitNL cs
    else
      match splitNL cs with
      | [] => [[c]]
      | l :: ls => (c :: l) :: ls

/-- Substring test: `needle in hay` of Python. -/
def containsSubstr (hay needle : Str) : Bool :=
  if needle.isPrefixOf hay then true
  else
    match hay with
    | [] => false
    | _ :: t => containsSubstr t needle

/-- Separator class `[-\s]` of the second substitution in `sanitize_name`. -/
def isDashOrSpace (c : Char) : Bool := c = '-' || pyIsSpace c

/-- Worker of the run-collapsing substitution: the flag records whether the
scan is inside a separator run whose underscore was already emitted. -/
def collapseGo : Bool → Str → Str
  | _, [] => []
  | inSep, c :: cs =>
    if isDashOrSpace c then
      (if inSep then [] else ['_']) ++ collapseGo true cs
    else c :: collapseGo false cs

/-- Second substitution of `sanitize_name`: `re.sub(r"[-\s]+", "_", s)` —
each maximal run of hyphens/whitespace becomes a single underscore
(`re.sub` rewrites leftmost maximal matches of the greedy `+`). -/
def collapseRuns (s : Str) : Str := collapseGo false s

/-- Embedding of `sanitize_name` (lines 33-39 of the source):
`if not text: return ""`, then `re.sub(r"[^\w\s-]", "", text).strip().lower()`
followed by `re.sub(r"[-\s]+", "_", s)`. -/
def sanitize_name (text : Str) : Str :=
  if text = [] then []
  else collapseRuns (pyLower (pyStrip
    (text.filter (fun c => pyIsWord c || pyIsSpace c || c = '-'))))

/-- Behaviour the claim attributes to the sanitizer: removal of every
character that is not alphanumeric, whitespace, or hyphen (so underscores
would be removed), then trim, lowercase, and collapse runs. -/
def sanitizeClaimed (text : Str) : Str :=
  if text = [] then []
  else collapseRuns (pyLower (pyStrip
    (text.filter (fun c => c.isAlphanum || pyIsSpace c || c = '-'))))

/-- Splitting on maximal `[-\s]` runs, keeping (possibly empty) boundary
segments: an independent restatement of run collapsing used to state the
amended sanitizer claim. -/
def splitSeps (s : Str) : List Str :=
  match h : s.dropWhile (fun c => !isDashOrSpace c) with
  | [] => [s.takeWhile (fun c => !isDashOrSpace c)]
  | _ :: rest =>
    s.takeWhile (fun c => !isDashOrSpace c) :: splitSeps (rest.dropWhile isDashOrSpace)
termination_by s.length
decreasing_by
  have h1 : (s.dropWhile (fun c => !isDashOrSpace c)).length ≤ s.length :=
    (List.dropWhile_sublist _).length_le
  rw [h] at h1
  simp only [List.length_cons] at h1
  have h2 : (rest.dropWhile isDashOrSpace).length ≤ rest.length :=
    (List.dropWhile_sublist isDashOrSpace).length_le
  omega

/-- Specification-side formulation of the amended sanitizer: filter, strip,
lowercase, then join the separator-split segments with single underscores. -/
def sanitizeSpec (text : Str) : Str :=
  if text = [] then []
  else List.intercalate ['_'] (splitSeps (pyLower (pyStrip
    (text.filter (fun c => pyIsWord c || pyIsSpace c || c = '-')))))

/-!
Backtracking matcher.  The regular expressions of the source are transcribed
element by element into a `List RE`; `matchL` implements the standard Python
semantics for exactly these constructs: literals, case-insensitive literals
(`re.IGNORECASE`), greedy `\d+` (its captures in the source are always
followed by a non-digit literal, so the maximal run is equivalent to the
backtracking behaviour), lazy `.*?` with or without `re.DOTALL`, greedy
`\s*`, and a greedy optional group.  Fuel makes every definition total; the
fixed fuel below is far larger than any document these theorems evaluate.
-/

/-- Element of a transcribed regular expression. -/
inductive RE where
  | lit (s : Str)
  | ilit (s : Str)
  | digits (idx : Option Nat)
  | star (nl : Bool) (idx : Option Nat)
  | ws
  | opt (inner : List RE)
deriving Repr

/-- Captures of a match: association list from group number to captured text. -/
abbrev Caps := List (Nat × Str)

/-- Lookup of a capture group. -/
def getCap (caps : Caps) (i : Nat) : Option Str :=
  (caps.find? (fun p => p.1 == i)).map (·.2)

/-- Case-insensitive or exact prefix match, returning the rest on success. -/
def litPref (ci : Bool) : Str → Str → Option Str
  | [], h => some h
  | _, [] => none
  | n :: ns, c :: hs =>
    if (if ci then n.toLower == c.toLower else n == c) then litPref ci ns hs
    else none

mutual

/-- Matching of an element list against a text suffix, returning the
unconsumed rest and the captures on success. -/
def matchL : Nat → List RE → Str → Option (Str × Caps)
  | 0, _, _ => none
  | _ + 1, [], s => some (s, [])
  | f + 1, .lit l :: rs, s => (litPref false l s).bind (matchL f rs)
  | f + 1, .ilit l :: rs, s => (litPref true l s).bind (matchL f rs)
  | f + 1, .digits i :: rs, s =>
    let run := s.takeWhile Char.isDigit
    if run.isEmpty then none
    else
      (matchL f rs (s.drop run.length)).map
        (fun r => (r.1, match i with | some n => (n, run) :: r.2 | none => r.2))
  | f + 1, .ws :: rs, s => wsMatch f rs s
  | f + 1, .star nl i :: rs, s => starMatch f nl i rs [] s
  | f + 1, .opt inner :: rs, s =>
    match matchL f (inner ++ rs) s with
    | some r => some r
    | none => matchL f rs s

/-- Greedy `\s*`: consume more whitespace first, backtracking to shorter runs. -/
def wsMatch : Nat → List RE → Str → Option (Str × Caps)
  | 0, _, _ => none
  | f + 1, rs, s =>
    match s with
    | c :: s' =>
      if pyIsSpace c then
        match wsMatch f rs s' with
        | some r => some r
        | none => matchL f rs s
      else matchL f rs s
    | [] => matchL f rs s

/-- Lazy `.*?`: try the continuation first, consuming one more character on
failure; without `re.DOTALL` a newline stops the expansion. -/
def starMatch : Nat → Bool → Option Nat → List RE → Str → Str → Option (Str × Caps)
  | 0, _, _, _, _, _ => none
  | f + 1, nl, i, rs, acc, s =>
    match matchL f rs s with
    | some r =>
      some (r.1, match i with | some n => (n, acc.reverse) :: r.2 | none => r.2)
    | none =>
      match s with
      | [] => none
      | c :: s' =>
        if nl || c != '\n' then starMatch f nl i rs (c :: acc) s'
        else none

end

/-- Fuel bound used for every concrete evaluation in this development. -/
def FUEL : Nat := 1000000

/-- Result of one regular-expression match inside a document. -/
structure RMatch where
  start : Nat
  stop : Nat
  text : Str
  caps : Caps
  tag : Nat
deriving Repr, DecidableEq

/-- Scanning of `re.search`: alternatives (tagged patterns) are tried in
order at each successive start position, as Python tries the leftmost
position first. -/
def searchFrom : Nat → List (Nat × List RE) → Str → Nat → Option RMatch
  | 0, _, _, _ => none
  | f + 1, pats, s, pos =>
    let tryHere := pats.firstM (fun p =>
      (matchL FUEL p.2 s).map (fun r =>
        ({ start := pos, stop := pos + (s.length - r.1.length),
           text := s.take (s.length - r.1.length), caps := r.2, tag := p.1 } : RMatch)))
    match tryHere with
    | some m => some m
    | none =>
      match s with
      | [] => none
      | _ :: s' => searchFrom f pats s' (pos + 1)

/-- Iteration of `re.finditer`: after each match the scan resumes at its end
(advancing one position on an empty match, which the transcribed patterns
never produce). -/
def finditerFrom : Nat → List (Nat × List RE) → Str → Nat → List RMatch
  | 0, _, _, _ => []
  | f + 1, pats, s, pos =>
    match searchFrom FUEL pats s pos with
    | none => []
    | some m =>
      let consumed := if m.stop > pos then m.stop - pos else 1
      m :: finditerFrom f pats (s.drop consumed) (pos + consumed)

/-- Finding of all matches of the tagged alternatives over a document. -/
def finditer (pats : List (Nat × List RE)) (s : Str) : List RMatch :=
  finditerFrom FUEL pats s 0

/-!
Transcription of the regular expressions of `ADE_generate_diagrams.py`.
-/

/-- Backtick fence opener followed by the language word, as a string helper. -/
def fence (lang : Str) : Str := '`' :: '`' :: '`' :: lang

/-- First alternative of `MERMAID_REGEX` (line 17, `re.DOTALL`): an already
wrapped block
`<details>.*?<summary>Mermaid Source</summary>.*?BACKTICKSmermaid\n(.*?)\nBACKTICKS.*?</details>`
followed by the optional image and link trailer
`(?:\s*!\[.*?\]\(.*?\)(?:\s*\[.*?\]\(.*?\))?)?`; the inner source is
capture group 2. -/
def MERMAID_REGEX_wrapped : List RE :=
  [ .lit "<details>".toList,
    .star true none, .lit "<summary>Mermaid Source</summary>".toList,
    .star true none, .lit (fence "mermaid\n".toList),
    .star true (some 2), .lit ('\n' :: fence []),
    .star true none, .lit "</details>".toList,
    .opt [ .ws, .lit "![".toList, .star true none, .lit "](".toList,
           .star true none, .lit ")".toList,
           .opt [ .ws, .lit "[".toList, .star true none, .lit "](".toList,
                  .star true none, .lit ")".toList ] ] ]

/-- Second alternative of `MERMAID_REGEX`: a raw block
`BACKTICKSmermaid\n(.*?)\nBACKTICKS`, source in capture group 4. -/
def MERMAID_REGEX_raw : List RE :=
  [ .lit (fence "mermaid\n".toList), .star true (some 4), .lit ('\n' :: fence []) ]

/-- Transcription of `FIGURE_REGEX` (lines 26-31, `re.IGNORECASE`, no
`re.DOTALL`):
`figure (\d+): (.*?)\n\n!\[figure \d+: .*?\]\((.*?)\)\n\[figure \d+: .*? source\]\((.*?)\)`. -/
def FIGURE_REGEX_pat : List RE :=
  [ .ilit "figure ".toList, .digits (some 1), .lit ": ".toList,
    .star false (some 2), .lit "\n\n".toList,
    .ilit "![figure ".toList, .digits none, .lit ": ".toList,
    .star false none, .lit "](".toList, .star false (some 3), .lit ")".toList,
    .lit "\n".toList, .ilit "[figure ".toList, .digits none, .lit ": ".toList,
    .star false none, .ilit " source](".toList, .star false (some 4), .lit ")".toList ]

/-- Transcription of `CAPTION_REGEX` (line 23, `re.IGNORECASE`):
`<!--\s*caption:\s*(.*?)\s*-->`. -/
def CAPTION_REGEX_pat : List RE :=
  [ .lit "<!--".toList, .ws, .ilit "caption:".toList, .ws,
    .star false (some 1), .ws, .lit "-->".toList ]

/-- Transcription of the frontmatter-title search of `extract_caption`
(line 46, `re.DOTALL`): `^\s*---\s*\n.*?title:\s*(.*?)\n.*?---\s*`; the
leading `^` anchors the search to the start of the source text. -/
def TITLE_REGEX_pat : List RE :=
  [ .ws, .lit "---".toList, .ws, .lit "\n".toList,
    .star true none, .lit "title:".toList, .ws,
    .star true (some 1), .lit "\n".toList,
    .star true none, .lit "---".toList, .ws ]

/-- Transcription of the Graphviz label search of `extract_caption`
(line 51): `label\s*=\s*"(.*?)"`. -/
def LABEL_REGEX_pat : List RE :=
  [ .lit "label".toList, .ws, .lit "=".toList, .ws, .lit "\"".toList,
    .star false (some 1), .lit "\"".toList ]

/-- Search of an unanchored pattern over a text, as `re.search`. -/
def reSearch (pat : List RE) (s : Str) : Option RMatch :=
  searchFrom FUEL [(0, pat)] s 0

/-- Search of the `^`-anchored frontmatter pattern: only position 0 can
match because the pattern is compiled without `re.MULTILINE`. -/
def titleSearch (s : Str) : Option Caps := (matchL FUEL TITLE_REGEX_pat s).map (·.2)

/-- Embedding of `extract_caption` (lines 41-66): frontmatter title, else
Graphviz label, else a caption comment on the last non-blank line before the
block (only consulted when the document text is truthy and the offset is
positive), else the literal `diagram`.  Group values of a successful search
are present strings, so a matched empty group still returns (the emptied)
group rather than falling through. -/
def extract_caption (content : Str) (md_content : Option Str) (match_start : Nat) : Str :=
  match titleSearch content with
  | some caps => pyStrip ((getCap caps 1).getD [])
  | none =>
    match reSearch LABEL_REGEX_pat content with
    | some m => pyStrip ((getCap m.caps 1).getD [])
    | none =>
      let fromComment : Option Str :=
        match md_content with
        | none => none
        | some md =>
          if md ≠ [] ∧ match_start > 0 then
            let lines := splitNL (pyStrip (md.take match_start))
            match lines.getLast? with
            | none => none
            | some ll =>
              (reSearch CAPTION_REGEX_pat (pyStrip ll)).map
                (fun m => pyStrip ((getCap m.caps 1).getD []))
          else none
      match fromComment with
      | some c => c
      | none => "diagram".toList

/-!
Paths and the file system.  Paths are absolute strings; the model assumes the
already-normalized absolute paths the pipeline builds (no `..`/`.` segments,
no symbolic links), so `Path.resolve()` is the identity on them.
-/

/-- Name after the last slash, as `Path.name`. -/
def fileName (p : Str) : Str := (p.reverse.takeWhile (fun c => c ≠ '/')).reverse

/-- Parent path, as `Path.parent` for the absolute paths this model uses. -/
def parentDir (p : Str) : Str :=
  ((p.reverse.dropWhile (fun c => c ≠ '/')).drop 1).reverse

/-- Stem, as `Path.stem`: the final component without its last suffix; a name
whose only dot is leading has no suffix. -/
def stemOf (p : Str) : Str :=
  let name := fileName p
  let revExt := name.reverse.takeWhile (fun c => c ≠ '.')
  if revExt.length + 1 ≤ name.length ∧ ¬(revExt.length + 1 = name.length) then
    (name.reverse.drop (revExt.length + 1)).reverse
  else name

/-- Suffix, as `Path.suffix`: the last dot of the final component and what
follows it, or empty when the component has no (non-leading) dot. -/
def suffixOf (p : Str) : Str :=
  let name := fileName p
  let revExt := name.reverse.takeWhile (fun c => c ≠ '.')
  if revExt.length + 1 ≤ name.length ∧ ¬(revExt.length + 1 = name.length) then
    '.' :: revExt.reverse
  else []

/-- Joining of a base path with a (relative) segment, as the `/` operator of
`pathlib`; an absolute right operand replaces the base. -/
def joinPath (a b : Str) : Str :=
  match b with
  | '/' :: _ => b
  | _ => a ++ '/' :: b

/-- Resolution of a path: the identity, under the model's assumption of
already-normalized absolute paths. -/
def resolvePath (p : Str) : Str := p

/-- Embedding of `Path.relative_to`: strip the base-directory prefix, or fail
(the `ValueError` branch of the source) when the path is not under it. -/
def relativeTo (p base : Str) : Option Str :=
  if (base ++ ['/']).isPrefixOf p then some (p.drop (base.length + 1)) else none

/-- File-system state: contents of regular files by absolute path. -/
abbrev FS := List (Str × Str)

/-- Reading of a file's content. -/
def fsRead (fs : FS) (p : Str) : Option Str := (fs.find? (fun e => e.1 == p)).map (·.2)

/-- Existence of a file. -/
def fsExists (fs : FS) (p : Str) : Bool := (fsRead fs p).isSome

/-- Writing (creating or overwriting) a file. -/
def fsWrite : FS → Str → Str → FS
  | [], p, v => [(p, v)]
  | (q, w) :: t, p, v => if q == p then (p, v) :: t else (q, w) :: fsWrite t p v

/-- Insertion into the `VALID_FILES` set, modelled as a duplicate-free list. -/
def setAdd (l : List Str) (x : Str) : List Str := if l.contains x then l else l ++ [x]

/-!
Reconciler loop of `process_markdown_diagrams` (lines 160-308).
-/

/-- Per-document context of the loop. -/
structure Ctx where
  checkOnly : Bool
  root : Str
  mdPath : Str
  content : Str

/-- Shared diagrams directory `project_root / "docs" / "assets" / "diagrams"`. -/
def diagramsDirOf (root : Str) : Str := root ++ "/docs/assets/diagrams".toList

/-- Trace entry for one counted match: its assigned figure index and whether
it survived the content checks (`accepted = false` records the
`continue` branches for empty captured content, a missing linked source, or a
non-diagram source extension). -/
structure TraceE where
  index : Nat
  accepted : Bool
deriving Repr, DecidableEq

/-- Loop state of the per-document pass. -/
structure LoopSt where
  frags : Str
  lastIdx : Nat
  changed : Bool
  count : Nat
  valid : List Str
  fs : FS
  trace : List TraceE
deriving Repr

/-- Embedding of the staleness decision and tracking-file write (lines
247-256): recompilation is needed when the SVG is missing, and the source is
persisted (and recompilation forced) when the tracking file is missing or its
stripped content differs from the block's (already stripped) source; the
renderer is invoked only outside check mode (line 258). -/
structure RecompileOut where
  neededRecompile : Bool
  trackingWritten : Bool
  renderInvoked : Bool
  fs : FS

/-- Decision step shared by every accepted block; `blockContent` is the
trimmed block source, exactly the `block_content` variable of the source. -/
def recompileStep (checkOnly : Bool) (fs : FS) (outputPath srcPath blockContent : Str) :
    RecompileOut :=
  let needed1 := !(fsExists fs outputPath)
  let writeSrc := !(fsExists fs srcPath) ||
    decide (pyStrip ((fsRead fs srcPath).getD []) ≠ blockContent)
  let fs1 := if writeSrc then fsWrite fs srcPath blockContent else fs
  let needed := needed1 || writeSrc
  { neededRecompile := needed, trackingWritten := writeSrc,
    renderInvoked := needed && !checkOnly, fs := fs1 }

/-- Renderer adapters `compile_mermaid_to_svg` / `compile_dot_to_svg`
(lines 106-158) with the external process stubbed to deterministic success:
the sibling source file is written, both artifact paths are registered, and
the SVG is produced. -/
def renderStub (fs : FS) (srcPath outputPath blockContent : Str) (valid : List Str) :
    FS × List Str :=
  let fs1 := fsWrite fs srcPath blockContent
  let valid1 := setAdd (setAdd valid outputPath) srcPath
  (fsWrite fs1 outputPath "<svg/>".toList, valid1)

/-- Canonical replacement text built at lines 271-275. -/
def replacementText (count : Nat) (caption relSvg relSrc : Str) : Str :=
  "figure ".toList ++ natToStr count ++ ": ".toList ++ caption ++ "\n\n".toList ++
  "![figure ".toList ++ natToStr count ++ ": ".toList ++ caption ++ "](".toList ++
    relSvg ++ ")\n".toList ++
  "[figure ".toList ++ natToStr count ++ ": ".toList ++ caption ++ " source](".toList ++
    relSrc ++ ")".toList

/-- Deterministic artifact base name `{documentStem}_{figureIndex}_{captionSlug}`
of line 239. -/
def nameBaseOf (ctx : Ctx) (cnt : Nat) (caption : Str) : Str :=
  stemOf ctx.mdPath ++ '_' :: natToStr cnt ++ '_' :: sanitize_name caption

/-- Rendered artifact path of line 240. -/
def outputPathOf (ctx : Ctx) (cnt : Nat) (caption : Str) : Str :=
  diagramsDirOf ctx.root ++ '/' :: nameBaseOf ctx cnt caption ++ ".svg".toList

/-- Source-tracking file path of line 241. -/
def srcPathOf (ctx : Ctx) (cnt : Nat) (caption sourceExt : Str) : Str :=
  diagramsDirOf ctx.root ++ '/' :: nameBaseOf ctx cnt caption ++ sourceExt

/-- Relative links of lines 264-269: both paths relative to the document's
directory, or both absolute when `relative_to` raises. -/
def relPairOf (ctx : Ctx) (cnt : Nat) (caption sourceExt : Str) : Str × Str :=
  match relativeTo (outputPathOf ctx cnt caption) (parentDir ctx.mdPath),
      relativeTo (srcPathOf ctx cnt caption sourceExt) (parentDir ctx.mdPath) with
  | some a, some b => (a, b)
  | _, _ => (outputPathOf ctx cnt caption, srcPathOf ctx cnt caption sourceExt)

/-- Canonical replacement computed for an accepted block (lines 264-275). -/
def acceptRepl (ctx : Ctx) (cnt : Nat) (caption sourceExt : Str) : Str :=
  replacementText cnt caption (relPairOf ctx cnt caption sourceExt).1
    (relPairOf ctx cnt caption sourceExt).2

/-- Continuation of the loop body for a block that passed the content checks
(lines 236-290): slug, deterministic artifact paths, `VALID_FILES`
registration, staleness decision, optional render, relative links, and the
idempotency comparison of the replacement against the matched span. -/
def acceptStep (ctx : Ctx) (st : LoopSt) (m : RMatch) (cnt : Nat)
    (blockContent caption sourceExt : Str) : LoopSt :=
  let outputPath := outputPathOf ctx cnt caption
  let srcPath := srcPathOf ctx cnt caption sourceExt
  let valid1 := setAdd (setAdd st.valid (resolvePath outputPath)) (resolvePath srcPath)
  let rc := recompileStep ctx.checkOnly st.fs outputPath srcPath blockContent
  let rendered :=
    if rc.renderInvoked ∧ (sourceExt = ".mmd".toList ∨ sourceExt = ".dot".toList) then
      renderStub rc.fs srcPath outputPath blockContent valid1
    else (rc.fs, valid1)
  let replacement := acceptRepl ctx cnt caption sourceExt
  let subst := pyStrip m.text ≠ pyStrip replacement
  { frags := st.frags ++ strSlice ctx.content st.lastIdx m.start ++
      (if subst then replacement else m.text),
    lastIdx := m.stop,
    changed := st.changed || subst,
    count := cnt,
    valid := rendered.2,
    fs := rendered.1,
    trace := st.trace ++ [⟨cnt, true⟩] }

/-- Linked source path of a figure match (lines 217-218). -/
def figSrcPath (ctx : Ctx) (m : RMatch) : Str :=
  resolvePath (joinPath (parentDir ctx.mdPath) (pyStrip ((getCap m.caps 4).getD [])))

/-- Lower-cased suffix of the linked source (line 223). -/
def figExt (ctx : Ctx) (m : RMatch) : Str := pyLower (suffixOf (figSrcPath ctx m))

/-- Captured source of a mermaid match: group 2 of the wrapped alternative or
group 4 of the raw one (lines 207-208). -/
def mermaidContent (m : RMatch) : Str :=
  (getCap m.caps (if m.tag == 1 then 2 else 4)).getD []

/-- Body of the per-match loop (lines 196-290).  A match starting before the
end of the previously consumed span is skipped without counting; every other
match increments the figure counter first and may still be skipped by the
content checks afterwards. -/
def step (ctx : Ctx) (st : LoopSt) (m : RMatch) : LoopSt :=
  if m.start < st.lastIdx then st
  else
    let cnt := st.count + 1
    let skipped : LoopSt := { st with count := cnt, trace := st.trace ++ [⟨cnt, false⟩] }
    if m.tag == 3 then
      match fsRead st.fs (figSrcPath ctx m) with
      | none => skipped
      | some raw =>
        if figExt ctx m = ".mmd".toList ∨ figExt ctx m = ".dot".toList then
          acceptStep ctx st m cnt (pyStrip raw)
            (pyStrip ((getCap m.caps 2).getD [])) (figExt ctx m)
        else
          let imgPath := resolvePath (joinPath (parentDir ctx.mdPath)
            (pyStrip ((getCap m.caps 3).getD [])))
          let valid2 := setAdd (setAdd st.valid (resolvePath (figSrcPath ctx m)))
            (resolvePath imgPath)
          { skipped with valid := valid2 }
    else
      if mermaidContent m = [] then skipped
      else
        acceptStep ctx st m cnt (pyStrip (mermaidContent m))
          (extract_caption (pyStrip (mermaidContent m)) (some ctx.content) m.start)
          ".mmd".toList

/-- Folding of the loop body over the located matches. -/
def processMatches (ctx : Ctx) (ms : List RMatch) (st : LoopSt) : LoopSt :=
  ms.foldl (step ctx) st

/-- Fueled worker of the stable merge; the fuel passed by `mergeMatches`
always suffices, so the fallback concatenation is never reached. -/
def mergeFuel : Nat → List RMatch → List RMatch → List RMatch
  | 0, xs, ys => xs ++ ys
  | _ + 1, [], ys => ys
  | _ + 1, xs, [] => xs
  | f + 1, x :: xs, y :: ys =>
    if y.start < x.start then y :: mergeFuel f (x :: xs) ys
    else x :: mergeFuel f xs (y :: ys)

/-- Stable merge by start position of two streams each already in document
order; on equal starts the left (mermaid) stream comes first, matching the
stable `sort` over the concatenated lists at lines 188-194. -/
def mergeMatches (xs ys : List RMatch) : List RMatch :=
  mergeFuel (xs.length + ys.length) xs ys

/-- Locator: all `MERMAID_REGEX` matches (wrapped alternative first) and all
`FIGURE_REGEX` matches, interleaved by start position. -/
def locateBlocks (content : Str) : List RMatch :=
  mergeMatches
    (finditer [(1, MERMAID_REGEX_wrapped), (2, MERMAID_REGEX_raw)] content)
    (finditer [(3, FIGURE_REGEX_pat)] content)

/-- Result of reconciling one document. -/
structure DocResult where
  content : Str
  changed : Bool
  fs : FS
  valid : List Str
  trace : List TraceE
deriving Repr

/-- Per-document pass of `process_markdown_diagrams` (lines 175-293): locate
blocks, run the loop, and append the tail after the last consumed span. -/
def process_markdown_doc (checkOnly : Bool) (root mdPath content : Str)
    (fs : FS) (valid : List Str) : DocResult :=
  let ctx : Ctx := { checkOnly := checkOnly, root := root, mdPath := mdPath, content := content }
  let st := processMatches ctx (locateBlocks content)
    { frags := [], lastIdx := 0, changed := false, count := 0,
      valid := valid, fs := fs, trace := [] }
  { content := st.frags ++ content.drop st.lastIdx, changed := st.changed,
    fs := st.fs, valid := st.valid, trace := st.trace }

/-!
Batch loop over the markdown files (lines 170-308) and the garbage collector
(lines 310-333).
-/

/-- Markdown file of the batch: its absolute path and its text, or `none`
when the bytes cannot be decoded as text (the `UnicodeDecodeError` that
`open(...).read()` raises at line 176). -/
structure MdFile where
  path : Str
  content : Option Str

/-- Batch state threaded through the loop. -/
structure BatchSt where
  fs : FS
  valid : List Str
  filesToUpdate : List Str
deriving Repr, DecidableEq

/-- Skip test of line 172: `"node_modules" in str(md_file) or "/." in str(md_file)`. -/
def skipPath (p : Str) : Bool :=
  containsSubstr p "node_modules".toList || containsSubstr p "/.".toList

/-- Embedding of the per-document loop of `process_markdown_diagrams`: each
file is either filtered out, read (a decode failure raises — there is no
handler, so the error aborts the whole batch), reconciled, and written back
when changed outside check mode or recorded as needing an update in check
mode. -/
def process_markdown_diagrams (checkOnly : Bool) (root : Str) :
    List MdFile → BatchSt → Except Str BatchSt
  | [], st => .ok st
  | f :: rest, st =>
    if skipPath f.path then process_markdown_diagrams checkOnly root rest st
    else
      match f.content with
      | none => .error f.path
      | some c =>
        let r := process_markdown_doc checkOnly root f.path c st.fs st.valid
        let st' : BatchSt :=
          if r.changed then
            if checkOnly then
              { fs := r.fs, valid := r.valid, filesToUpdate := st.filesToUpdate ++ [f.path] }
            else
              { fs := fsWrite r.fs f.path r.content, valid := r.valid,
                filesToUpdate := st.filesToUpdate }
          else { fs := r.fs, valid := r.valid, filesToUpdate := st.filesToUpdate }
        process_markdown_diagrams checkOnly root rest st'

/-- Exit status of a check-mode run (lines 304-308): 1 when any file needs
updating, 0 otherwise. -/
def checkExitCode (st : BatchSt) : Nat := if st.filesToUpdate.isEmpty then 0 else 1

/-- Outcome of the garbage collector. -/
structure CleanupOut where
  deleted : List Str
  remaining : List Str
  deletedCount : Nat
deriving Repr, DecidableEq

/-- Embedding of `cleanup_unused_diagrams` (lines 310-333): every file of the
shared diagrams directory whose suffix is `.svg` or `.mmd` and whose resolved
path is not in `VALID_FILES` is deleted and counted; files with any other
suffix — including `.dot` — are kept. -/
def cleanup_unused_diagrams : List Str → List Str → CleanupOut
  | [], _ => { deleted := [], remaining := [], deletedCount := 0 }
  | f :: rest, valid =>
    let r := cleanup_unused_diagrams rest valid
    if suffixOf f = ".svg".toList ∨ suffixOf f = ".mmd".toList then
      if valid.contains (resolvePath f) then
        { r with remaining := f :: r.remaining }
      else
        { deleted := f :: r.deleted, remaining := r.remaining,
          deletedCount := r.deletedCount + 1 }
    else { r with remaining := f :: r.remaining }

/-!
Concrete scenarios referenced by the theorems below.
-/

/-- Directory listing used by the C5 counterexample: one unreferenced file of
each artifact extension and one of a foreign extension. -/
def c5files : List Str :=
  ["/d/a.dot".toList, "/d/b.svg".toList, "/d/c.mmd".toList, "/d/d.txt".toList]

/-- Decidable equality of `Except` results, for evaluating batch outcomes. -/
instance {α β : Type} [DecidableEq α] [DecidableEq β] : DecidableEq (Except α β) := fun a b =>
  match a, b with
  | .ok x, .ok y =>
    if h : x = y then .isTrue (by rw [h]) else .isFalse (fun hh => h (Except.ok.inj hh))
  | .error x, .error y =>
    if h : x = y then .isTrue (by rw [h]) else .isFalse (fun hh => h (Except.error.inj hh))
  | .ok _, .error _ => .isFalse (fun hh => Except.noConfusion hh)
  | .error _, .ok _ => .isFalse (fun hh => Except.noConfusion hh)

/-- Project root of the C1 scenario. -/
def c1root : Str := "/p".toList

/-- Markdown path of the C1 scenario. -/
def c1mdPath : Str := "/p/README.md".toList

/-- Batch of the C1 scenario: one readable document holding one raw mermaid
block, against an empty file system. -/
def c1files : List MdFile := [{ path := c1mdPath, content := some "```mermaid\nA\n```".toList }]

/-- Initial batch state of the C1 scenario. -/
def c1init : BatchSt := { fs := [], valid := [], filesToUpdate := [] }

/-- Source-tracking file the check run creates. -/
def c1tracking : Str := "/p/docs/assets/diagrams/README_1_diagram.mmd".toList

/-- Rendered-artifact path registered by the check run. -/
def c1svg : Str := "/p/docs/assets/diagrams/README_1_diagram.svg".toList

/-- Expected batch state after the C1 check run. -/
def c1expected : BatchSt :=
  { fs := [(c1tracking, ['A'])], valid := [c1svg, c1tracking], filesToUpdate := [c1mdPath] }

/-- Document of the C3 scenario: two raw mermaid blocks then one raw dot
block. -/
def c3doc : Str := "```mermaid\nA\n```\n```mermaid\nB\n```\n```dot\nC\n```".toList

/-- One reconciliation pass over the C3 document. -/
def c3result : DocResult :=
  process_markdown_doc false "/p".toList "/p/README.md".toList c3doc [] []

/-- Output the pass actually produces: the two mermaid blocks become figures
1 and 2; the raw dot block is left exactly as it was. -/
def c3expected : Str :=
  ("figure 1: diagram\n\n![figure 1: diagram](docs/assets/diagrams/README_1_diagram.svg)\n[figure 1: diagram source](docs/assets/diagrams/README_1_diagram.mmd)\nfigure 2: diagram\n\n![figure 2: diagram](docs/assets/diagrams/README_2_diagram.svg)\n[figure 2: diagram source](docs/assets/diagrams/README_2_diagram.mmd)\n```dot\nC\n```").toList

/-- Document of the C4 scenario: an empty raw mermaid block followed by a
non-empty one. -/
def c4doc : Str := "```mermaid\n\n```\nx\n```mermaid\nA\n```".toList

/-- One reconciliation pass over the C4 document. -/
def c4result : DocResult :=
  process_markdown_doc false "/p".toList "/p/README.md".toList c4doc [] []

/-- Output the pass actually produces on the C4 document: the empty block is
left in place and the accepted block is numbered 2. -/
def c4expected : Str :=
  ("```mermaid\n\n```\nx\nfigure 2: diagram\n\n![figure 2: diagram](docs/assets/diagrams/README_2_diagram.svg)\n[figure 2: diagram source](docs/assets/diagrams/README_2_diagram.mmd)").toList

/-- Witness document for the amended C2 theorem: a single canonical figure
block whose artifacts exist and match. -/
def w2doc : Str :=
  ("figure 1: diagram\n\n![figure 1: diagram](docs/assets/diagrams/README_1_diagram.svg)\n[figure 1: diagram source](docs/assets/diagrams/README_1_diagram.mmd)").toList

/-- File system of the C2 witness: tracking file and rendered SVG both
present and current. -/
def w2fs : FS :=
  [("/p/docs/assets/diagrams/README_1_diagram.mmd".toList, ['A']),
   ("/p/docs/assets/diagrams/README_1_diagram.svg".toList, "<svg/>".toList)]

/-- Initial document of the C2 counterexample: a figure block whose linked
source `README_2_x.mmd` does not exist yet, followed by a raw mermaid block
whose caption comment and position make the first run create exactly that
file. -/
def c2doc : Str :=
  ("figure 1: x\n\n![figure 1: x](a.svg)\n[figure 1: x source](docs/assets/diagrams/README_2_x.mmd)\n<!-- caption: x -->\n```mermaid\nA\n```").toList

/-- First reconciliation run of the C2 counterexample, from an empty file
system. -/
def c2run1 : DocResult :=
  process_markdown_doc false "/p".toList "/p/README.md".toList c2doc [] []

/-- Second reconciliation run, on the first run's output and file system. -/
def c2run2 : DocResult :=
  process_markdown_doc false "/p".toList "/p/README.md".toList c2run1.content c2run1.fs
    c2run1.valid

/-- Document after the first run: the figure block was skipped (missing
source), the raw block became figure 2 and its tracking file was written. -/
def c2after1 : Str :=
  ("figure 1: x\n\n![figure 1: x](a.svg)\n[figure 1: x source](docs/assets/diagrams/README_2_x.mmd)\n<!-- caption: x -->\nfigure 2: x\n\n![figure 2: x](docs/assets/diagrams/README_2_x.svg)\n[figure 2: x source](docs/assets/diagrams/README_2_x.mmd)").toList

/-- Document after the second run: the linked source now resolves, so the
first block is reconciled again — to different artifact paths. -/
def c2after2 : Str :=
  ("figure 1: x\n\n![figure 1: x](docs/assets/diagrams/README_1_x.svg)\n[figure 1: x source](docs/assets/diagrams/README_1_x.mmd)\n<!-- caption: x -->\nfigure 2: x\n\n![figure 2: x](docs/assets/diagrams/README_2_x.svg)\n[figure 2: x source](docs/assets/diagrams/README_2_x.mmd)").toList

/-- Concrete replacement of the C6 counterexample. -/
def c6repl : Str := replacementText 1 ['c'] "p.svg".toList "p.mmd".toList

/-- Batch of the C8 counterexample: a readable document, an undecodable one,
and a readable document holding a diagram that would need reconciling. -/
def c8files : List MdFile :=
  [ { path := "/p/a.md".toList, content := some ['x'] },
    { path := "/p/b.md".toList, content := none },
    { path := "/p/c.md".toList, content := some "```mermaid\nZ\n```".toList } ]

/-- Mermaid source of the C9 precedence scenario: frontmatter title `X`. -/
def c9front : Str := "---\ntitle: X\n---\nflowchart".toList

/-- Document of the C9 precedence scenario: a caption comment `Y` on the line
before the block, whose start offset is 20. -/
def c9md : Str := "<!-- caption: Y -->\n```mermaid".toList

set_option maxRecDepth 100000
set_option maxHeartbeats 4000000

/-!
Supporting lemmas.
-/

/-- Head of a non-trivial `dropWhile` residue fails the predicate. -/
theorem dropWhile_head_false (p : Char → Bool) (s rest : Str) (c : Char)
    (h : s.dropWhile p = c :: rest) : p c = false := by
  induction s with
  | nil => simp at h
  | cons a as ih =>
    by_cases hp : p a = true
    · rw [List.dropWhile_cons, if_pos hp] at h
      exact ih h
    · rw [List.dropWhile_cons, if_neg hp] at h
      cases h
      simpa using hp

/-- Run collapsing distributes over a separator-free prefix. -/
theorem collapseGo_append_nosep (pre t : Str)
    (h : ∀ c ∈ pre, isDashOrSpace c = false) :
    collapseGo false (pre ++ t) = pre ++ collapseGo false t := by
  induction pre with
  | nil => simp
  | cons c cs ih =>
    have hc : isDashOrSpace c = false := h c (List.mem_cons_self c cs)
    have ih' := ih (fun x hx => h x (List.mem_cons_of_mem c hx))
    simp [collapseGo, hc, ih']

/-- In-run collapsing equals fresh collapsing after the run is dropped. -/
theorem collapseGo_true_dropWhile (s : Str) :
    collapseGo true s = collapseGo false (s.dropWhile isDashOrSpace) := by
  induction s with
  | nil => simp [collapseGo]
  | cons c cs ih =>
    by_cases hc : isDashOrSpace c = true
    · simp [collapseGo, hc, List.dropWhile_cons, ih]
    · simp only [Bool.not_eq_true] at hc
      simp [collapseGo, hc, List.dropWhile_cons]

/-- Separator splitting never returns the empty list. -/
theorem splitSeps_ne_nil (s : Str) : splitSeps s ≠ [] := by
  rw [splitSeps]
  split <;> simp

/-- Equivalence of the sequential substitution `re.sub(r"[-\s]+", "_", s)`
with splitting on separator runs and joining with single underscores. -/
theorem collapseRuns_eq_intercalate (s : Str) :
    collapseRuns s = List.intercalate ['_'] (splitSeps s) := by
  suffices H : ∀ n (s : Str), s.length = n →
      collapseRuns s = List.intercalate ['_'] (splitSeps s) by
    exact H s.length s rfl
  intro n
  induction n using Nat.strong_induction_on with
  | _ n ih =>
    intro s hn
    rw [collapseRuns, splitSeps]
    have hpre : ∀ c ∈ s.takeWhile (fun c => !isDashOrSpace c), isDashOrSpace c = false := by
      intro c hc
      have := List.mem_takeWhile_imp hc
      simpa using this
    split
    · next hdrop =>
      have hs : s.takeWhile (fun c => !isDashOrSpace c) = s := by
        conv_rhs => rw [← List.takeWhile_append_dropWhile
          (p := fun c => !isDashOrSpace c) (l := s)]
        rw [hdrop, List.append_nil]
      rw [show List.intercalate ['_'] [s.takeWhile (fun c => !isDashOrSpace c)] =
            s.takeWhile (fun c => !isDashOrSpace c) by simp [List.intercalate]]
      rw [hs]
      have hall : ∀ c ∈ s, isDashOrSpace c = false := by
        intro c hc
        apply hpre
        rw [hs]
        exact hc
      have := collapseGo_append_nosep s [] hall
      simpa [collapseGo] using this
    · next c rest hdrop =>
      have hc : isDashOrSpace c = true := by
        have := dropWhile_head_false (fun c => !isDashOrSpace c) s rest c hdrop
        simpa using this
      have hdecomp : s.takeWhile (fun c => !isDashOrSpace c) ++ c :: rest = s := by
        conv_rhs => rw [← List.takeWhile_append_dropWhile
          (p := fun c => !isDashOrSpace c) (l := s)]
        rw [hdrop]
      conv_lhs => rw [← hdecomp]
      rw [collapseGo_append_nosep _ _ hpre]
      have hstep : collapseGo false (c :: rest) =
          '_' :: collapseGo false (rest.dropWhile isDashOrSpace) := by
        simp [collapseGo, hc, collapseGo_true_dropWhile]
      rw [hstep]
      have hlen : (rest.dropWhile isDashOrSpace).length < n := by
        have h1 : (s.dropWhile (fun c => !isDashOrSpace c)).length ≤ s.length :=
          (List.dropWhile_sublist _).length_le
        rw [hdrop] at h1
        simp only [List.length_cons] at h1
        have h2 : (rest.dropWhile isDashOrSpace).length ≤ rest.length :=
    (List.dropWhile_sublist isDashOrSpace).length_le
        omega
      have ihr := ih _ hlen (rest.dropWhile isDashOrSpace) rfl
      rw [collapseRuns] at ihr
      rw [ihr]
      have hne := splitSeps_ne_nil (rest.dropWhile isDashOrSpace)
      match hsp : splitSeps (rest.dropWhile isDashOrSpace) with
      | [] => exact absurd hsp hne
      | y :: ys => simp [List.intercalate, List.intersperse]

/-- Reading back a just-written file returns the written content. -/
theorem fsRead_fsWrite_self (fs : FS) (p v : Str) : fsRead (fsWrite fs p v) p = some v := by
  induction fs with
  | nil => simp [fsWrite, fsRead, List.find?]
  | cons e t ih =>
    obtain ⟨q, w⟩ := e
    by_cases h : (q == p) = true
    · simp [fsWrite, h, fsRead, List.find?]
    · simp only [fsWrite, h, fsRead, List.find?, Bool.false_eq_true, if_false] at ih ⊢
      exact ih

/-!
Claim C10.
-/

/-- C10 counterexample: `sanitize_name` keeps underscores because the regex
class `\w` contains them, while the claim's description (remove everything
that is not alphanumeric, whitespace, or hyphen) would delete them; on the
input `a_b` the code returns `a_b`, not the claimed `ab`. -/
theorem sanitizer_keeps_underscore :
    sanitize_name "a_b".toList = "a_b".toList ∧
    sanitizeClaimed "a_b".toList = "ab".toList ∧
    sanitize_name "a_b".toList ≠ sanitizeClaimed "a_b".toList := by
  exact ⟨by decide, by decide, by decide⟩

/-- C10 (amended): the sanitizer removes every character that is not a word
character (alphanumeric or underscore), whitespace, or hyphen, trims,
lowercases, and collapses each maximal run of whitespace/hyphens into a
single underscore (equivalently: splits on separator runs and joins with
underscores); `My Cool Diagram!` maps to `my_cool_diagram` and the empty
string to the empty string. -/
theorem sanitize_name_amended_spec (t : Str) :
    sanitize_name t = sanitizeSpec t ∧
    sanitize_name "My Cool Diagram!".toList = "my_cool_diagram".toList ∧
    sanitize_name ([] : Str) = [] := by
  refine ⟨?_, by decide, by decide⟩
  unfold sanitize_name sanitizeSpec
  split
  · rfl
  · rw [collapseRuns_eq_intercalate]

/-!
Claim C5.
-/

/-- C5 counterexample: `cleanup_unused_diagrams` filters on the suffix list
`[".svg", ".mmd"]` only, so an unreferenced `.dot` file — an artifact
extension the claim says is collected — survives garbage collection. -/
theorem unreferenced_dot_file_survives_cleanup :
    cleanup_unused_diagrams c5files [] =
      { deleted := ["/d/b.svg".toList, "/d/c.mmd".toList],
        remaining := ["/d/a.dot".toList, "/d/d.txt".toList],
        deletedCount := 2 } ∧
    suffixOf "/d/a.dot".toList = ".dot".toList ∧
    ([] : List Str).contains "/d/a.dot".toList = false := by
  exact ⟨by decide, by decide, by decide⟩

/-- C5 (amended): the garbage collector deletes exactly the files of the
shared diagrams directory whose extension is `.svg` or `.mmd` (not `.dot`)
and whose resolved path is not in the valid set, reports their number, and
keeps everything else. -/
theorem cleanup_deletes_exactly_unreferenced_svg_mmd (files valid : List Str) :
    (cleanup_unused_diagrams files valid).deleted =
      files.filter (fun f =>
        (decide (suffixOf f = ".svg".toList) || decide (suffixOf f = ".mmd".toList)) &&
        !(valid.contains (resolvePath f))) ∧
    (cleanup_unused_diagrams files valid).deletedCount =
      (cleanup_unused_diagrams files valid).deleted.length ∧
    (cleanup_unused_diagrams files valid).remaining =
      files.filter (fun f =>
        !((decide (suffixOf f = ".svg".toList) || decide (suffixOf f = ".mmd".toList)) &&
          !(valid.contains (resolvePath f)))) := by
  induction files with
  | nil => exact ⟨rfl, rfl, rfl⟩
  | cons f rest ih =>
    obtain ⟨h1, h2, h3⟩ := ih
    by_cases hs : suffixOf f = ".svg".toList ∨ suffixOf f = ".mmd".toList
    · have hs' : (decide (suffixOf f = ".svg".toList) ||
          decide (suffixOf f = ".mmd".toList)) = true := by
        rcases hs with h | h <;> simp [h]
      by_cases hv : valid.contains (resolvePath f) = true
      · refine ⟨?_, ?_, ?_⟩ <;>
          simp_all [cleanup_unused_diagrams, List.filter_cons] <;>
          rw [if_neg (by tauto)]
      · refine ⟨?_, ?_, ?_⟩ <;>
          simp_all [cleanup_unused_diagrams, List.filter_cons] <;>
          rw [if_neg (by tauto)]
    · have hs1 : ¬ suffixOf f = ".svg".toList := fun h => hs (Or.inl h)
      have hs2 : ¬ suffixOf f = ".mmd".toList := fun h => hs (Or.inr h)
      refine ⟨?_, ?_, ?_⟩ <;>
        simp_all [cleanup_unused_diagrams, List.filter_cons]

/-!
Claim C7.
-/

/-- C7: in a non-check run the renderer is invoked exactly when the SVG is
missing, the tracking file is missing, or the tracking file's stripped
content differs from the block's stripped source; whenever the tracking file
is missing or differs it is rewritten with the new source — the write at
lines 253-256 precedes the render call of lines 258-262, so it happens
regardless of the render outcome. -/
theorem recompile_invoked_iff_artifact_stale (fs : FS) (outputPath srcPath blockContent : Str) :
    (recompileStep false fs outputPath srcPath blockContent).renderInvoked =
      (!(fsExists fs outputPath) || !(fsExists fs srcPath) ||
        decide (pyStrip ((fsRead fs srcPath).getD []) ≠ blockContent)) ∧
    (recompileStep false fs outputPath srcPath blockContent).trackingWritten =
      (!(fsExists fs srcPath) ||
        decide (pyStrip ((fsRead fs srcPath).getD []) ≠ blockContent)) ∧
    fsRead (recompileStep false fs outputPath srcPath blockContent).fs srcPath =
      (if (recompileStep false fs outputPath srcPath blockContent).trackingWritten
       then some blockContent else fsRead fs srcPath) ∧
    (recompileStep false fs outputPath srcPath blockContent).renderInvoked =
      (recompileStep false fs outputPath srcPath blockContent).neededRecompile := by
  refine ⟨?_, rfl, ?_, ?_⟩
  · simp [recompileStep, Bool.or_assoc]
  · by_cases hw : fsExists fs srcPath = false ∨
        ¬ pyStrip ((fsRead fs srcPath).getD []) = blockContent
    · simp [recompileStep, hw, fsRead_fsWrite_self]
    · simp [recompileStep, hw]
  · simp [recompileStep]

/-!
Claim C1.
-/

/-- C1: a `--check` run over a project whose file system starts empty ends
with the source-tracking file written to disk — the write of lines 253-256 is
not guarded by `check_only`, contradicting the flag's own help text
(`Check if files need updating without modifying them`) and the claim that a
check run mutates no file; the exit status (1, because the document would
change) is as claimed. -/
theorem check_mode_writes_tracking_file :
    process_markdown_diagrams true c1root c1files c1init = Except.ok c1expected ∧
    c1init.fs = [] ∧
    fsExists c1expected.fs c1tracking = true ∧
    checkExitCode c1expected = 1 := by
  exact ⟨by decide, rfl, by decide, by rfl⟩

/-!
Claim C3.
-/

/-- C3 counterexample: `MERMAID_REGEX` has no alternative for ```` ```dot ````
fences, so the locator finds only the two mermaid blocks of the C3 document
and the pass emits no `figure 3` — the raw dot block survives verbatim,
refuting the claim that raw dot blocks are located and numbered. -/
theorem raw_dot_block_not_located :
    (locateBlocks c3doc).length = 2 ∧
    c3result.content = c3expected ∧
    containsSubstr c3expected "figure 3".toList = false ∧
    containsSubstr c3expected "```dot\nC\n```".toList = true := by
  exact ⟨by decide, by decide, by decide, by decide⟩

/-- C3 (amended): the locator finds raw mermaid blocks and already-canonical
figure blocks only; on a document with two raw mermaid blocks and one raw dot
block, one pass numbers the mermaid blocks figure 1 and figure 2 in source
order and leaves the dot block untouched. -/
theorem mermaid_figures_numbered_dot_left_untouched :
    c3result.trace = [⟨1, true⟩, ⟨2, true⟩] ∧
    containsSubstr c3expected "figure 1: diagram".toList = true ∧
    containsSubstr c3expected "figure 2: diagram".toList = true ∧
    c3result.changed = true := by
  exact ⟨by decide, by decide, by decide, by decide⟩

/-!
Claim C4.
-/

/-- C4 counterexample: the counter is incremented at line 201 before the
empty-content check of lines 209-210, so the skipped empty block consumes
index 1 and the only accepted block is numbered `figure 2` — the assigned
indices do not start at 1 and have a gap, refuting the claim. -/
theorem figure_index_consumed_by_skipped_match :
    c4result.trace = [⟨1, false⟩, ⟨2, true⟩] ∧
    c4result.content = c4expected ∧
    containsSubstr c4expected "figure 2: ".toList = true ∧
    containsSubstr c4expected "figure 1".toList = false := by
  exact ⟨by decide, by decide, by decide, by decide⟩

/-- Shape of one loop-body step: a match starting inside the consumed span
leaves the state unchanged; any other match either is counted and skipped
(appending a non-accepted trace entry and possibly registering valid paths)
or is counted and accepted, substituting exactly when the stripped
replacement differs from the stripped matched span. -/
theorem step_shape (ctx : Ctx) (st : LoopSt) (m : RMatch) :
    step ctx st m = st ∨
    (∃ v, step ctx st m =
      { st with count := st.count + 1,
                trace := st.trace ++ [⟨st.count + 1, false⟩], valid := v }) ∨
    (¬ m.start < st.lastIdx ∧ ∃ repl fs2 v2,
      step ctx st m =
        { frags := st.frags ++ strSlice ctx.content st.lastIdx m.start ++
            (if pyStrip m.text ≠ pyStrip repl then repl else m.text),
          lastIdx := m.stop,
          changed := st.changed || decide (pyStrip m.text ≠ pyStrip repl),
          count := st.count + 1,
          valid := v2, fs := fs2,
          trace := st.trace ++ [⟨st.count + 1, true⟩] }) := by
  by_cases hov : m.start < st.lastIdx
  · left
    simp [step, hov]
  · rw [step, if_neg hov]
    by_cases ht : (m.tag == 3) = true
    · rw [if_pos ht]
      split
      · right; left; exact ⟨st.valid, rfl⟩
      · split
        · right; right; exact ⟨hov, _, _, _, rfl⟩
        · right; left; exact ⟨_, rfl⟩
    · rw [if_neg ht]
      split
      · right; left; exact ⟨st.valid, rfl⟩
      · right; right; exact ⟨hov, _, _, _, rfl⟩

/-- Figure indices of the trace are the positions (from 1) among the counted
matches, for any loop state satisfying the counter-trace invariant. -/
theorem processMatches_trace_indices (ctx : Ctx) (ms : List RMatch) (st : LoopSt)
    (h1 : st.count = st.trace.length)
    (h2 : st.trace.map TraceE.index = List.range' 1 st.trace.length) :
    (processMatches ctx ms st).trace.map TraceE.index =
      List.range' 1 (processMatches ctx ms st).trace.length := by
  induction ms generalizing st with
  | nil => exact h2
  | cons m rest ih =>
    have hfold : processMatches ctx (m :: rest) st = processMatches ctx rest (step ctx st m) :=
      rfl
    rw [hfold]
    rcases step_shape ctx st m with h | ⟨v, h⟩ | ⟨hge, repl, fs2, v2, h⟩
    · rw [h]
      exact ih st h1 h2
    · rw [h]
      apply ih
      · simp [h1]
      · simp only [List.map_append, List.length_append, List.map_cons, List.map_nil,
          List.length_cons, List.length_nil]
        rw [h2, h1]
        rw [List.range'_concat]
        simp [Nat.add_comm]
    · rw [h]
      apply ih
      · simp [h1]
      · simp only [List.map_append, List.length_append, List.map_cons, List.map_nil,
          List.length_cons, List.length_nil]
        rw [h2, h1]
        rw [List.range'_concat]
        simp [Nat.add_comm]

/-- C4 (amended): within one document the figure counter is incremented
exactly once per match that survives the overlap check — including matches
later skipped for empty captured content or a missing linked source — so the
trace of counted matches carries the indices 1, 2, 3, … in document order;
the indices actually used by accepted replacements are a subsequence of
these and may therefore start above 1 or have gaps. -/
theorem figure_indices_sequential_over_counted_matches
    (checkOnly : Bool) (root mdPath content : Str) (fs : FS) (valid : List Str) :
    (process_markdown_doc checkOnly root mdPath content fs valid).trace.map TraceE.index =
      List.range' 1 (process_markdown_doc checkOnly root mdPath content fs valid).trace.length := by
  unfold process_markdown_doc
  exact processMatches_trace_indices _ _ _ rfl rfl

/-!
Claim C2.
-/

/-- Prefix concatenation of adjacent slices: `l[0:a] ++ l[a:b] = l[0:b]`. -/
theorem take_slice_append (l : Str) (a b : Nat) (hab : a ≤ b) :
    l.take a ++ strSlice l a b = l.take b := by
  rw [strSlice]
  conv_rhs => rw [show b = a + (b - a) by omega]
  rw [List.take_add]

/-- Preservation of the reconstruction invariant over the whole match list:
while no substitution has happened, the accumulated fragments are exactly the
document prefix up to the consumed index. -/
theorem processMatches_unchanged_frags (ctx : Ctx) (ms : List RMatch) (st : LoopSt)
    (hwf : ∀ m ∈ ms, m.start ≤ m.stop ∧ m.stop ≤ ctx.content.length ∧
      m.text = strSlice ctx.content m.start m.stop)
    (hst : st.changed = false → st.frags = ctx.content.take st.lastIdx ∧
      st.lastIdx ≤ ctx.content.length) :
    (processMatches ctx ms st).changed = false →
      (processMatches ctx ms st).frags =
        ctx.content.take (processMatches ctx ms st).lastIdx ∧
      (processMatches ctx ms st).lastIdx ≤ ctx.content.length := by
  induction ms generalizing st with
  | nil => exact hst
  | cons m rest ih =>
    have hfold : processMatches ctx (m :: rest) st = processMatches ctx rest (step ctx st m) :=
      rfl
    rw [hfold]
    obtain ⟨hm1, hm2, hm3⟩ := hwf m (List.mem_cons_self m rest)
    apply ih (step ctx st m) (fun x hx => hwf x (List.mem_cons_of_mem m hx))
    intro hch
    rcases step_shape ctx st m with h | ⟨v, h⟩ | ⟨hge, repl, fs2, v2, h⟩
    · rw [h] at hch ⊢
      exact hst hch
    · rw [h] at hch ⊢
      exact hst hch
    · rw [h] at hch ⊢
      simp only [Bool.or_eq_false_iff] at hch
      obtain ⟨hc0, hd⟩ := hch
      obtain ⟨hfr, _⟩ := hst hc0
      have hne : ¬ pyStrip m.text ≠ pyStrip repl := by
        simpa using hd
      have hle : st.lastIdx ≤ m.start := Nat.not_lt.mp hge
      constructor
      · show st.frags ++ strSlice ctx.content st.lastIdx m.start ++
          (if pyStrip m.text ≠ pyStrip repl then repl else m.text) =
          ctx.content.take m.stop
        rw [if_neg hne, hfr, hm3, List.append_assoc, ← List.append_assoc,
          take_slice_append _ _ _ hle, take_slice_append _ _ _ hm1]
      · exact hm2

/-- C2 (amended): within one pass, every already-canonical block whose
stripped replacement equals the stripped matched span contributes its
original text, so a pass that reports a document unchanged returns it
byte-identical; the two-run byte-identity of the original claim fails (see
the counterexample) because a tracking file written by the first run can make
a previously missing linked source resolvable in the second. -/
theorem unchanged_pass_returns_document_byte_identical
    (checkOnly : Bool) (root mdPath content : Str) (fs : FS) (valid : List Str)
    (hwf : ∀ m ∈ locateBlocks content, m.start ≤ m.stop ∧ m.stop ≤ content.length ∧
      m.text = strSlice content m.start m.stop)
    (hunch : (process_markdown_doc checkOnly root mdPath content fs valid).changed = false) :
    (process_markdown_doc checkOnly root mdPath content fs valid).content = content := by
  have hfr := processMatches_unchanged_frags
    { checkOnly := checkOnly, root := root, mdPath := mdPath, content := content }
    (locateBlocks content)
    { frags := [], lastIdx := 0, changed := false, count := 0, valid := valid, fs := fs,
      trace := [] }
    hwf (by intro _; exact ⟨rfl, Nat.zero_le _⟩) hunch
  obtain ⟨h1, h2⟩ := hfr
  show (processMatches _ (locateBlocks content) _).frags ++
    content.drop (processMatches _ (locateBlocks content) _).lastIdx = content
  rw [h1, List.take_append_drop]

/-- Witness: the amended C2 theorem applied to a concrete already-canonical
document returns it byte-identical. -/
theorem unchanged_pass_returns_document_byte_identical_witness :
    (process_markdown_doc false "/p".toList "/p/README.md".toList w2doc w2fs []).content =
      w2doc :=
  unchanged_pass_returns_document_byte_identical false "/p".toList "/p/README.md".toList
    w2doc w2fs [] (by decide) (by decide)

/-- C2 counterexample: the second run over the first run's output (renderer
stubbed to deterministic success) marks the document as changed and rewrites
it, because the tracking file `README_2_x.mmd` written by the first run makes
the previously skipped figure block's linked source resolvable — refuting
both the byte-identity and the zero-changed-documents parts of the claim. -/
theorem second_run_changes_reconciled_document :
    c2run1.content = c2after1 ∧
    c2run2.changed = true ∧
    c2run2.content = c2after2 ∧
    c2after1 ≠ c2after2 := by
  exact ⟨by decide, by decide, by decide, by decide⟩

/-!
Claim C6.
-/

/-- C6 counterexample: the replacement built at lines 271-275 is the figure
line, a blank line, the image line, and a source *link* line — it contains no
`<details>` region and no source label, refuting the claimed collapsible
details block. -/
theorem replacement_lacks_details_block :
    c6repl = "figure 1: c\n\n![figure 1: c](p.svg)\n[figure 1: c source](p.mmd)".toList ∧
    containsSubstr c6repl "<details>".toList = false ∧
    containsSubstr c6repl "Mermaid Source".toList = false ∧
    containsSubstr c6repl "Graphviz Source".toList = false := by
  exact ⟨by decide, by decide, by decide, by decide⟩

/-- Newline splitting peels one newline-free line off the front. -/
theorem splitNL_line (a rest : Str) (h : ∀ c ∈ a, c ≠ '\n') :
    splitNL (a ++ '\n' :: rest) = a :: splitNL rest := by
  induction a with
  | nil => simp [splitNL]
  | cons c cs ih =>
    have hc : c ≠ '\n' := h c (List.mem_cons_self c cs)
    have ih' := ih (fun x hx => h x (List.mem_cons_of_mem c hx))
    simp only [List.cons_append, splitNL, if_neg hc, List.append_eq, ih']

/-- Newline splitting of a newline-free text is the single segment. -/
theorem splitNL_nlfree (a : Str) (h : ∀ c ∈ a, c ≠ '\n') : splitNL a = [a] := by
  induction a with
  | nil => rfl
  | cons c cs ih =>
    have hc : c ≠ '\n' := h c (List.mem_cons_self c cs)
    have ih' := ih (fun x hx => h x (List.mem_cons_of_mem c hx))
    simp only [splitNL, if_neg hc, ih']

/-- Newline-freeness transported from a decidable `all` test. -/
theorem nlfree_of_all (s : Str) (hs : s.all (fun c => decide (c ≠ '\n')) = true) :
    ∀ c ∈ s, c ≠ '\n' := by
  intro c hc
  have := List.all_eq_true.mp hs c hc
  simpa using this

/-- Reassociation of the replacement text into its three lines. -/
theorem replacementText_shape (n : Nat) (caption relSvg relSrc : Str) :
    replacementText n caption relSvg relSrc =
      ("figure ".toList ++ natToStr n ++ ": ".toList ++ caption) ++ '\n' :: '\n' ::
      (("![figure ".toList ++ natToStr n ++ ": ".toList ++ caption ++ "](".toList ++
          relSvg ++ [')']) ++ '\n' ::
        ("[figure ".toList ++ natToStr n ++ ": ".toList ++ caption ++ " source](".toList ++
          relSrc ++ [')'])) := by
  simp only [replacementText, show ("\n\n").toList = ['\n', '\n'] from rfl,
    show (")\n").toList = [')', '\n'] from rfl, show (")").toList = [')'] from rfl,
    List.append_assoc, List.cons_append, List.nil_append]

/-- C6 (amended): for each accepted block the replacement text consists of
exactly four lines — `figure {index}: {caption}`, a blank line, the image
reference line, and a source link line `[figure {index}: {caption} source]
({relative source path})`; there is no second blank line and no collapsible
details block. -/
theorem replacement_is_figure_image_sourcelink (n : Nat) (caption relSvg relSrc : Str)
    (hn : ∀ c ∈ natToStr n, c ≠ '\n')
    (hcap : ∀ c ∈ caption, c ≠ '\n')
    (hsvg : ∀ c ∈ relSvg, c ≠ '\n')
    (hsrc : ∀ c ∈ relSrc, c ≠ '\n') :
    splitNL (replacementText n caption relSvg relSrc) =
      [ "figure ".toList ++ natToStr n ++ ": ".toList ++ caption,
        [],
        "![figure ".toList ++ natToStr n ++ ": ".toList ++ caption ++ "](".toList ++
          relSvg ++ [')'],
        "[figure ".toList ++ natToStr n ++ ": ".toList ++ caption ++ " source](".toList ++
          relSrc ++ [')'] ] := by
  rw [replacementText_shape]
  have hA : ∀ c ∈ "figure ".toList ++ natToStr n ++ ": ".toList ++ caption, c ≠ '\n' := by
    intro c hc
    simp only [List.mem_append] at hc
    rcases hc with ((h | h) | h) | h
    · exact nlfree_of_all _ (by decide) c h
    · exact hn c h
    · exact nlfree_of_all _ (by decide) c h
    · exact hcap c h
  have hB : ∀ c ∈ "![figure ".toList ++ natToStr n ++ ": ".toList ++ caption ++
      "](".toList ++ relSvg ++ [')'], c ≠ '\n' := by
    intro c hc
    simp only [List.mem_append] at hc
    rcases hc with (((((h | h) | h) | h) | h) | h) | h
    · exact nlfree_of_all _ (by decide) c h
    · exact hn c h
    · exact nlfree_of_all _ (by decide) c h
    · exact hcap c h
    · exact nlfree_of_all _ (by decide) c h
    · exact hsvg c h
    · exact nlfree_of_all _ (by decide) c h
  have hC : ∀ c ∈ "[figure ".toList ++ natToStr n ++ ": ".toList ++ caption ++
      " source](".toList ++ relSrc ++ [')'], c ≠ '\n' := by
    intro c hc
    simp only [List.mem_append] at hc
    rcases hc with (((((h | h) | h) | h) | h) | h) | h
    · exact nlfree_of_all _ (by decide) c h
    · exact hn c h
    · exact nlfree_of_all _ (by decide) c h
    · exact hcap c h
    · exact nlfree_of_all _ (by decide) c h
    · exact hsrc c h
    · exact nlfree_of_all _ (by decide) c h
  rw [splitNL_line _ _ hA]
  rw [show splitNL ('\n' :: (("![figure ".toList ++ natToStr n ++ ": ".toList ++ caption ++
      "](".toList ++ relSvg ++ [')']) ++ '\n' ::
      ("[figure ".toList ++ natToStr n ++ ": ".toList ++ caption ++ " source](".toList ++
        relSrc ++ [')']))) =
    [] :: splitNL (("![figure ".toList ++ natToStr n ++ ": ".toList ++ caption ++
      "](".toList ++ relSvg ++ [')']) ++ '\n' ::
      ("[figure ".toList ++ natToStr n ++ ": ".toList ++ caption ++ " source](".toList ++
        relSrc ++ [')'])) from by simp [splitNL]]
  rw [splitNL_line _ _ hB, splitNL_nlfree _ hC]

/-- Witness: the amended C6 theorem applied at figure 1 with caption `c` and
paths `p.svg`, `p.mmd`. -/
theorem replacement_is_figure_image_sourcelink_witness :
    splitNL (replacementText 1 ['c'] "p.svg".toList "p.mmd".toList) =
      [ "figure 1: c".toList, [], "![figure 1: c](p.svg)".toList,
        "[figure 1: c source](p.mmd)".toList ] :=
  replacement_is_figure_image_sourcelink 1 ['c'] "p.svg".toList "p.mmd".toList
    (by decide) (by decide) (by decide) (by decide)

/-!
Claim C8.
-/

/-- C8 counterexample: the read at lines 175-176 has no exception handler, so
an undecodable document aborts the whole batch — the loop returns the raised
error instead of skipping the document and processing the rest, refuting the
claim. -/
theorem undecodable_document_aborts_batch :
    process_markdown_diagrams false "/p".toList c8files
      { fs := [], valid := [], filesToUpdate := [] } =
      Except.error "/p/b.md".toList := by
  decide

/-- C8 (amended): when a document of the batch cannot be decoded, the
exception propagates out of the per-document loop: whatever readable or
filtered documents precede it, the loop's result is the error naming that
document, and the documents after it are never processed. -/
theorem decode_error_propagates_out_of_loop
    (checkOnly : Bool) (root : Str) (pre : List MdFile) (bad : MdFile)
    (post : List MdFile) (st : BatchSt)
    (hpre : ∀ f ∈ pre, skipPath f.path = true ∨ f.content ≠ none)
    (hskip : skipPath bad.path = false) (hbad : bad.content = none) :
    process_markdown_diagrams checkOnly root (pre ++ bad :: post) st =
      Except.error bad.path := by
  induction pre generalizing st with
  | nil =>
    rw [List.nil_append, process_markdown_diagrams, if_neg (by simp [hskip]), hbad]
  | cons f rest ih =>
    have hf := hpre f (List.mem_cons_self f rest)
    have hrest : ∀ x ∈ rest, skipPath x.path = true ∨ x.content ≠ none :=
      fun x hx => hpre x (List.mem_cons_of_mem f hx)
    rw [List.cons_append, process_markdown_diagrams]
    rcases hf with hsk | hc
    · rw [if_pos (by simp [hsk])]
      exact ih st hrest
    · by_cases hskf : skipPath f.path = true
      · rw [if_pos (by simp [hskf])]
        exact ih st hrest
      · rw [if_neg (by simp [hskf])]
        rcases hcv : f.content with _ | c
        · exact absurd hcv hc
        · exact ih _ hrest

/-- Witness: the amended C8 theorem applied to a batch of one readable
document followed by one undecodable document. -/
theorem decode_error_propagates_out_of_loop_witness :
    process_markdown_diagrams false "/q".toList
      [ { path := "/q/good.md".toList, content := some ['y'] },
        { path := "/q/bad.md".toList, content := none } ]
      { fs := [], valid := [], filesToUpdate := [] } =
      Except.error "/q/bad.md".toList :=
  decode_error_propagates_out_of_loop false "/q".toList
    [{ path := "/q/good.md".toList, content := some ['y'] }]
    { path := "/q/bad.md".toList, content := none } []
    { fs := [], valid := [], filesToUpdate := [] }
    (by decide) (by decide) rfl

/-!
Claim C9.
-/

/-- C9 counterexample: a frontmatter block whose `title:` value is empty
makes the title regex match with an empty group, so `extract_caption` returns
the empty string — refuting the claim that the extractor never returns an
empty caption. -/
theorem empty_frontmatter_title_yields_empty_caption :
    extract_caption "---\ntitle:\n---".toList none 0 = [] := by
  decide

/-- C9 (amended): the caption is chosen in priority order — the frontmatter
title when the anchored title search matches, else the Graphviz label value,
else the preceding caption comment, else the non-empty literal `diagram`; a
matched title, label, or comment whose value is empty yields the empty
string.  In particular frontmatter `title: X` wins over a preceding
`caption: Y` comment. -/
theorem caption_priority_order (content : Str) (md : Option Str) (ms : Nat) :
    (∀ caps, titleSearch content = some caps →
        extract_caption content md ms = pyStrip ((getCap caps 1).getD [])) ∧
    (titleSearch content = none →
      ∀ m, reSearch LABEL_REGEX_pat content = some m →
        extract_caption content md ms = pyStrip ((getCap m.caps 1).getD [])) ∧
    (titleSearch content = none → reSearch LABEL_REGEX_pat content = none → md = none →
        extract_caption content md ms = "diagram".toList) ∧
    extract_caption c9front (some c9md) 20 = ['X'] := by
  refine ⟨?_, ?_, ?_, by decide⟩
  · intro caps h
    simp [extract_caption, h]
  · intro h m hm
    simp [extract_caption, h, hm]
  · intro h1 h2 h3
    subst h3
    simp [extract_caption, h1, h2]

/-- Witness: the amended C9 theorem's title branch applied to a concrete
frontmatter source. -/
theorem caption_priority_order_witness :
    extract_caption "---\ntitle: T\n---".toList none 0 = ['T'] :=
  (caption_priority_order "---\ntitle: T\n---".toList none 0).1 [(1, ['T'])] (by decide)
